import Mathlib

set_option maxHeartbeats 1000000

/-! Shallow embedding of the RipForge community disc-database worker
(src/worker/index.js).  The two core operations, lookupDisc and
contributeDisc, are translated line by line; the remote hosts (the raw
blob fetch, the authenticated contents GET that also yields the content
version token, and the conditional PUT) are modelled as explicit inputs
to the operations.  JavaScript numbers are modelled as exact rationals:
no claim in this development depends on IEEE-754 rounding, and every
numeric comparison a claim touches holds with a wide margin.  Blob text
is modelled as List Char so that splitting on newlines and trimming can
be reasoned about directly. -/

/-- JSON values as produced by JSON.parse and consumed by JSON.stringify.
Object field lists represent JavaScript objects, whose keys are distinct. -/
inductive Json where
  | null : Json
  | bool : Bool → Json
  | num : ℚ → Json
  | str : String → Json
  | arr : List Json → Json
  | obj : List (String × Json) → Json

/-- JavaScript truthiness of a possibly-undefined value (none = undefined):
undefined, null, false, 0 and the empty string are falsy, everything else
(objects and arrays included) is truthy. -/
def truthy : Option Json → Bool
  | none => false
  | some .null => false
  | some (.bool b) => b
  | some (.num q) => q != 0
  | some (.str s) => s != ""
  | some (.arr _) => true
  | some (.obj _) => true

/-- JavaScript strict equality on JSON values.  Objects and arrays compare
by reference in JavaScript; in every comparison this program performs the
two operands come from different allocations (one freshly parsed, one from
the request), so reference equality never holds and false is faithful. -/
def jsStrictEq : Json → Json → Bool
  | .null, .null => true
  | .bool a, .bool b => a == b
  | .num a, .num b => a == b
  | .str a, .str b => a == b
  | _, _ => false

/-- Strict equality lifted to possibly-undefined operands:
undefined === undefined is true, undefined === anything else is false. -/
def optStrictEq : Option Json → Option Json → Bool
  | none, none => true
  | some a, some b => jsStrictEq a b
  | _, _ => false

/-- Property access v.k in JavaScript: access on null throws a TypeError
(modelled as .error), access on a non-object yields undefined, access on
an object looks the key up. -/
def getProp : Json → String → Except Unit (Option Json)
  | .null, _ => .error ()
  | .obj fs, k => .ok ((fs.find? (fun f => f.1 == k)).map (fun f => f.2))
  | _, _ => .ok none

/-- Field lookup on a JavaScript object given as its field list. -/
def objGet (fs : List (String × Json)) (k : String) : Option Json :=
  (fs.find? (fun f => f.1 == k)).map (fun f => f.2)

/-- The whitespace characters String.prototype.trim strips (JavaScript also
strips a few rarer code points such as form feed and NBSP; immaterial here). -/
def isWs (c : Char) : Bool :=
  c = ' ' || c = '\t' || c = '\n' || c = '\r'

/-- text.trim(): strip leading and trailing whitespace. -/
def trimChars (l : List Char) : List Char :=
  ((l.dropWhile isWs).reverse.dropWhile isWs).reverse

/-- text.split with separator a single newline character: always returns at
least one (possibly empty) piece. -/
def splitLines : List Char → List (List Char)
  | [] => [[]]
  | c :: cs =>
    if c = '\n' then [] :: splitLines cs
    else
      match splitLines cs with
      | [] => [[c]]
      | l :: ls => (c :: l) :: ls

/-- content.trim().split(newline).filter(Boolean): the line list both the
read path and the write-path duplicate scan operate on (an empty string is
the only falsy string, so filter(Boolean) drops exactly the empty lines). -/
def blobLines (content : List Char) : List (List Char) :=
  (splitLines (trimChars content)).filter (fun l => !l.isEmpty)

/-- A decimal digit character (the only base this program prints is 10). -/
def digCh (n : Nat) : Char :=
  if n = 0 then '0' else if n = 1 then '1' else if n = 2 then '2'
  else if n = 3 then '3' else if n = 4 then '4' else if n = 5 then '5'
  else if n = 6 then '6' else if n = 7 then '7' else if n = 8 then '8'
  else '9'

/-- Decimal digits of a natural number, most significant first. -/
def natChars (n : Nat) : List Char :=
  if h : n < 10 then [digCh n]
  else natChars (n / 10) ++ [digCh (n % 10)]
termination_by n
decreasing_by
  exact Nat.div_lt_self (Nat.lt_of_lt_of_le (by omega) (Nat.le_of_not_lt h)) (by omega)

/-- Decimal rendering of an integer. -/
def intChars (i : Int) : List Char :=
  if i < 0 then '-' :: natChars (-i).toNat else natChars i.toNat

/-- Rendering of a JavaScript number.  Integers render exactly as
JSON.stringify renders them; for non-integer values JSON.stringify uses
decimal or scientific notation, rendered here as num/den (no claim
inspects the serialized text of a non-integer, and neither rendering
contains a newline, which is the only property the proofs use). -/
def ratChars (q : ℚ) : List Char :=
  if q.den = 1 then intChars q.num
  else intChars q.num ++ '/' :: natChars q.den

/-- JSON string escaping of one character, as JSON.stringify performs it
(rare control characters other than these are escaped as unicode sequences
by JSON.stringify; they are left as-is here, which also contains no raw
newline). -/
def escChar (c : Char) : List Char :=
  if c = '"' then ['\\', '"']
  else if c = '\\' then ['\\', '\\']
  else if c = '\n' then ['\\', 'n']
  else if c = '\r' then ['\\', 'r']
  else if c = '\t' then ['\\', 't']
  else [c]

/-- Body of a JSON string literal. -/
def escString (s : String) : List Char :=
  (s.toList.map escChar).flatten

/-- A JSON string literal, quotes included. -/
def strLit (s : String) : List Char :=
  '"' :: escString s ++ ['"']

/-- The opening brace character of a JSON object literal. -/
def obrace : Char := Char.ofNat 123

/-- The closing brace character of a JSON object literal. -/
def cbrace : Char := Char.ofNat 125

mutual

/-- JSON.stringify of a value (compact form, no extra whitespace, which is
what the contribution path uses when appending the new record line). -/
def stringifyVal : Json → List Char
  | .null => "null".toList
  | .bool true => "true".toList
  | .bool false => "false".toList
  | .num q => ratChars q
  | .str s => strLit s
  | .arr xs => '[' :: stringifyArr xs ++ [']']
  | .obj fs => obrace :: stringifyFields fs ++ [cbrace]

/-- Comma-separated serialization of array elements. -/
def stringifyArr : List Json → List Char
  | [] => []
  | [x] => stringifyVal x
  | x :: y :: xs => stringifyVal x ++ ',' :: stringifyArr (y :: xs)

/-- Comma-separated serialization of object fields, insertion order. -/
def stringifyFields : List (String × Json) → List Char
  | [] => []
  | [f] => strLit f.1 ++ ':' :: stringifyVal f.2
  | f :: g :: fs => strLit f.1 ++ ':' :: stringifyVal f.2 ++ ',' :: stringifyFields (g :: fs)

end

/-- text.trim().split(newline).filter(Boolean).map(JSON.parse) on the read
path: the map has no try/catch, so the first line that fails to parse
throws, which the model signals with none. -/
def parseLines (parse : List Char → Option Json) : List (List Char) → Option (List Json)
  | [] => some []
  | l :: ls =>
    match parse l with
    | none => none
    | some v =>
      match parseLines parse ls with
      | none => none
      | some vs => some (v :: vs)

/-- The parsed entry list the read path builds from the blob text. -/
def readEntries (parse : List Char → Option Json) (text : List Char) : Option (List Json) :=
  parseLines parse (blobLines text)

/-- Array.prototype.find with a predicate that may throw (property access
on a null entry throws a TypeError that propagates out of the find). -/
def findThrow (p : α → Except Unit Bool) : List α → Except Unit (Option α)
  | [] => .ok none
  | x :: xs =>
    match p x with
    | .error u => .error u
    | .ok true => .ok (some x)
    | .ok false => findThrow p xs

/-- The exact-match predicate e.disc_label === label of lookupDisc
(label is the query string, so the comparison is against a string value;
a record without the field yields undefined, which is not === any string). -/
def exactPred (label : String) (e : Json) : Except Unit Bool :=
  match getProp e "disc_label" with
  | .error u => .error u
  | .ok f => .ok (optStrictEq f (some (.str label)))

/-- The fuzzy predicate of lookupDisc:
Math.abs(e.duration_secs - duration) <= tolerance && e.disc_type === the
string dvd, with tolerance = duration * 0.05.  A record whose
duration_secs is undefined gives NaN arithmetic, whose comparisons are
false (JavaScript string-to-number coercion of a non-numeric duration_secs
field is not modelled; no claim touches such a record).  The && operator
short-circuits, so disc_type is only accessed when the duration test
passes. -/
def fuzzyPred (duration : ℚ) (e : Json) : Except Unit Bool :=
  match getProp e "duration_secs" with
  | .error u => .error u
  | .ok fd =>
    let inTol : Bool :=
      match fd with
      | some (.num q) => decide (|q - duration| ≤ duration * (5 / 100))
      | _ => false
    if inTol then
      match getProp e "disc_type" with
      | .error u => .error u
      | .ok ft => .ok (optStrictEq ft (some (.str "dvd")))
    else .ok false

/-- The observable outcome of lookupDisc: the 400 missing-label response,
the 500 fetch-failure response, a thrown exception (a JSON.parse failure
on the read path or a TypeError in a find callback) that the top-level
handler turns into a 500, a found entry, or the not-found echo. -/
inductive LookupResult where
  | missingLabel : LookupResult
  | fetchFailed : LookupResult
  | thrown : LookupResult
  | found : Json → LookupResult
  | notFound : String → ℚ → LookupResult

/-- lookupDisc(label, duration) from src/worker/index.js.  parse stands for
the JSON.parse builtin; fetched is the body of the upstream blob fetch
(none when the response was not ok); label is the query string (the empty
string also stands for an absent parameter, both are falsy); duration is
the parsed duration query parameter. -/
def lookupDisc (parse : List Char → Option Json) (label : String) (duration : ℚ)
    (fetched : Option (List Char)) : LookupResult :=
  if label == "" then .missingLabel
  else
    match fetched with
    | none => .fetchFailed
    | some text =>
      match readEntries parse text with
      | none => .thrown
      | some entries =>
        match findThrow (exactPred label) entries with
        | .error _ => .thrown
        | .ok (some m) => .found m
        | .ok none =>
          if duration > 0 then
            match findThrow (fuzzyPred duration) entries with
            | .error _ => .thrown
            | .ok (some m) => .found m
            | .ok none => .notFound label duration
          else .notFound label duration

/-- The required-field list of contributeDisc, in source order. -/
def requiredFields : List String :=
  ["disc_label", "disc_type", "duration_secs", "title"]

/-- The first required field the validation loop rejects: the loop returns
on the first field f with !data[f], i.e. the first field whose value is
falsy (absent, null, false, 0 or the empty string all fail this test). -/
def firstRejectedField (data : List (String × Json)) : Option String :=
  requiredFields.find? (fun f => !truthy (objGet data f))

/-- The normalized entry contributeDisc builds: the four required fields
copied from the input, track_count defaulted to 0 when falsy, year and
tmdb_id defaulted to null when falsy, contributed_at stamped with the
server clock (the now argument models new Date().toISOString()).  The
field list is exactly these eight keys in this insertion order, which is
also the order JSON.stringify serializes them in. -/
def mkEntry (data : List (String × Json)) (now : String) : List (String × Json) :=
  [("disc_label", (objGet data "disc_label").getD .null),
   ("disc_type", (objGet data "disc_type").getD .null),
   ("duration_secs", (objGet data "duration_secs").getD .null),
   ("track_count",
     if truthy (objGet data "track_count") then (objGet data "track_count").getD .null
     else .num 0),
   ("title", (objGet data "title").getD .null),
   ("year",
     if truthy (objGet data "year") then (objGet data "year").getD .null else .null),
   ("tmdb_id",
     if truthy (objGet data "tmdb_id") then (objGet data "tmdb_id").getD .null else .null),
   ("contributed_at", .str now)]

/-- One iteration of the write-path duplicate scan: the whole body
(JSON.parse and the disc_label access and comparison) is wrapped in
try/catch, so a parse failure or a TypeError on a null line yields false
rather than aborting. -/
def dupLinePred (parse : List Char → Option Json) (data : List (String × Json))
    (line : List Char) : Bool :=
  match parse line with
  | none => false
  | some v =>
    match getProp v "disc_label" with
    | .error _ => false
    | .ok f => optStrictEq f (objGet data "disc_label")

/-- The write-path duplicate check of contributeDisc over the current blob
content: some existing nonempty line parses to a value whose disc_label is
strictly equal to the new entry's disc_label. -/
def isDuplicate (parse : List Char → Option Json) (data : List (String × Json))
    (content : List Char) : Bool :=
  (blobLines content).any (dupLinePred parse data)

/-- newContent = currentContent.trim() + newline + JSON.stringify(entry) +
newline: the blob body submitted to the conditional update (the worker
base64-encodes it for transport; the model works with the decoded bytes on
both sides, so the encoding cancels). -/
def newBlob (content : List Char) (entry : List (String × Json)) : List Char :=
  trimChars content ++ '\n' :: stringifyVal (.obj entry) ++ ['\n']

/-- The observable outcome of contributeDisc: the 400 validation response
naming the first rejected field, the 500 missing-credential response, the
500 on a failed authenticated read, the duplicate no-op success, the 500
when the host rejects the conditional update, or the success response
echoing the normalized entry. -/
inductive ContributeOutcome where
  | validationError : String → ContributeOutcome
  | configError : ContributeOutcome
  | fetchFailed : ContributeOutcome
  | duplicate : ContributeOutcome
  | commitFailed : ContributeOutcome
  | added : List (String × Json) → ContributeOutcome

/-- A conditional update submitted to the storage host: the new blob body
and the content version token (the sha of the previously read state) sent
as the precondition. -/
structure WriteAction where
  content : List Char
  sha : String

/-- contributeDisc(data, env) from src/worker/index.js.  parse models the
JSON.parse builtin; data is the parsed JSON request body, assumed to be an
object (given as its field list); hasToken models whether env.GITHUB_TOKEN
is configured; now models new Date().toISOString(); fetched models the
authenticated contents read, none when not ok, otherwise the decoded blob
body paired with its content version token (sha); putOk models whether the
host accepted the conditional update.  The second component of the result
is the conditional update submitted, none when the operation never reaches
the write: the single Option records that at most one write is ever
attempted (no internal retry exists in the code). -/
def contributeDisc (parse : List Char → Option Json) (data : List (String × Json))
    (hasToken : Bool) (now : String) (fetched : Option (List Char × String))
    (putOk : Bool) : ContributeOutcome × Option WriteAction :=
  match firstRejectedField data with
  | some f => (.validationError f, none)
  | none =>
    if !hasToken then (.configError, none)
    else
      let entry := mkEntry data now
      match fetched with
      | none => (.fetchFailed, none)
      | some (content, sha) =>
        if isDuplicate parse data content then (.duplicate, none)
        else
          let newContent := newBlob content entry
          if putOk then (.added entry, some ⟨newContent, sha⟩)
          else (.commitFailed, some ⟨newContent, sha⟩)

/-- The disc_label of a nonempty blob line as the duplicate scan would see
it: the value of the disc_label field when the line parses to a value on
which the access does not throw and yields a defined value. -/
def lineLabel (parse : List Char → Option Json) (line : List Char) : Option Json :=
  match parse line with
  | none => none
  | some v =>
    match getProp v "disc_label" with
    | .error _ => none
    | .ok f => f

/-- The disc_label values carried by the blob: one per nonempty line that
parses to a value with a defined disc_label. -/
def blobLabels (parse : List Char → Option Json) (content : List Char) : List Json :=
  (blobLines content).filterMap (lineLabel parse)

/-- The uniqueness-of-disc_label invariant of the dataset: no two lines of
the blob carry strictly-equal disc_label values. -/
def labelsUnique (parse : List Char → Option Json) (content : List Char) : Prop :=
  (blobLabels parse content).Pairwise (fun a b => jsStrictEq a b = false)

/-- A sample parsed disc record, shaped like the README example, used by the
concrete witnesses below. -/
def rec5501 : Json :=
  .obj [("disc_label", .str "SC30NNW1"), ("disc_type", .str "dvd"),
        ("duration_secs", .num 5501), ("track_count", .num 12),
        ("title", .str "The Santa Clause 3"), ("year", .num 2006),
        ("tmdb_id", .num 10431), ("contributed_at", .str "2026-01-23T14:23:13Z")]

/-- The raw text of the single line of the sample blob.  JSON.parse is an
external builtin modelled as an explicit parse function, so the sample parse
table below may associate any line text with its parsed value. -/
def line1 : List Char := "line1".toList

/-- A line that JSON.parse rejects. -/
def badLine : List Char := "badline".toList

/-- A sample parse oracle: line1 parses to rec5501, everything else throws. -/
def demoParse (l : List Char) : Option Json :=
  if l = line1 then some rec5501 else none

/-- A sample one-line blob. -/
def demoBlob : List Char := line1

/-- A sample blob whose second line does not parse. -/
def badBlob : List Char := line1 ++ '\n' :: badLine

/-- A sample contribution body: a fresh disc_label, a client-supplied
contributed_at (which the engine must ignore) and an extra field (which the
engine must drop). -/
def demoData : List (String × Json) :=
  [("disc_label", .str "NEWLBL"), ("disc_type", .str "dvd"),
   ("duration_secs", .num 6000), ("title", .str "Some Movie"),
   ("contributed_at", .str "1999-01-01T00:00:00Z"), ("extra_field", .num 7)]

/-- A sample contribution body whose disc_label already occurs in demoBlob. -/
def dupData : List (String × Json) :=
  [("disc_label", .str "SC30NNW1"), ("disc_type", .str "dvd"),
   ("duration_secs", .num 5501), ("title", .str "The Santa Clause 3")]

/-- A contribution body whose four required fields are all present, with
duration_secs equal to the integer 0. -/
def zeroData : List (String × Json) :=
  [("disc_label", .str "SC30NNW1"), ("disc_type", .str "dvd"),
   ("duration_secs", .num 0), ("title", .str "The Santa Clause 3")]

/-- The server timestamp used by the concrete witnesses. -/
def demoNow : String := "2026-02-03T04:05:06Z"

/-- The normalized entry the engine builds from demoData. -/
def demoEntry : List (String × Json) := mkEntry demoData demoNow

/-- The sample parse oracle extended so that the serialized demoEntry line
parses back to demoEntry (JSON.parse inverts JSON.stringify). -/
def demoParseRt (l : List Char) : Option Json :=
  if l = line1 then some rec5501
  else if l = stringifyVal (.obj demoEntry) then some (.obj demoEntry)
  else none

theorem splitLines_ne_nil (l : List Char) : splitLines l ≠ [] := by
  induction l with
  | nil => simp [splitLines]
  | cons c cs ih =>
    simp only [splitLines]
    split
    · simp
    · cases h : splitLines cs with
      | nil => simp
      | cons x xs => simp

theorem splitLines_append (xs ys : List Char) :
    splitLines (xs ++ '\n' :: ys) = splitLines xs ++ splitLines ys := by
  induction xs with
  | nil => simp [splitLines]
  | cons c cs ih =>
    by_cases hc : c = '\n'
    · subst hc
      simp only [List.cons_append, splitLines, if_pos rfl, List.append_eq]
      rw [ih]
      simp
    · simp only [List.cons_append, splitLines, if_neg hc, List.append_eq]
      rw [ih]
      cases h : splitLines cs with
      | nil => exact absurd h (splitLines_ne_nil cs)
      | cons x xsl =>
        simp

theorem splitLines_no_lf {l : List Char} (h : '\n' ∉ l) : splitLines l = [l] := by
  induction l with
  | nil => simp [splitLines]
  | cons c cs ih =>
    simp only [List.mem_cons, not_or] at h
    have hc : ¬(c = '\n') := fun hcc => h.1 hcc.symm
    simp [splitLines, ih h.2, hc]

theorem trimChars_eq_rdrop (l : List Char) :
    trimChars l = (l.dropWhile isWs).rdropWhile isWs := rfl

theorem trimChars_head_not_ws {l : List Char} {c : Char} {r : List Char}
    (h : trimChars l = c :: r) : isWs c = false := by
  rw [trimChars_eq_rdrop] at h
  obtain ⟨t, ht⟩ := List.rdropWhile_prefix (l := l.dropWhile isWs) isWs
  rw [h] at ht
  have hne : l.dropWhile isWs ≠ [] := by
    rw [← ht]
    simp
  have hhd := List.head_dropWhile_not isWs l hne
  have h1 : (l.dropWhile isWs).head? = some c := by
    rw [← ht]
    simp
  have h2 : (l.dropWhile isWs).head? = some ((l.dropWhile isWs).head hne) :=
    List.head?_eq_head hne
  have h3 : (l.dropWhile isWs).head hne = c := by
    rw [h1] at h2
    exact (Option.some.inj h2).symm
  rw [h3] at hhd
  exact hhd

theorem trimChars_getLast_not_ws {l : List Char} {c : Char}
    (h : (trimChars l).getLast? = some c) : isWs c = false := by
  rw [trimChars_eq_rdrop] at h
  have hne : (l.dropWhile isWs).rdropWhile isWs ≠ [] := by
    intro he
    rw [he] at h
    simp at h
  have hlast := List.rdropWhile_last_not isWs (l.dropWhile isWs) hne
  rw [List.getLast?_eq_getLast _ hne] at h
  have heq : ((l.dropWhile isWs).rdropWhile isWs).getLast hne = c := Option.some.inj h
  rw [heq] at hlast
  simpa using hlast

theorem stringify_obj_eq (fs : List (String × Json)) :
    stringifyVal (.obj fs) = obrace :: stringifyFields fs ++ [cbrace] := by
  rw [stringifyVal]

theorem isWs_obrace : isWs obrace = false := by decide

theorem isWs_cbrace : isWs cbrace = false := by decide

theorem dropWhile_padded (w : List Char) (hw : ∀a ∈w, isWs a = true)
    (c : Char) (hc : isWs c = false) (r : List Char) :
    List.dropWhile isWs (w ++ c :: r) = c :: r := by
  induction w with
  | nil => simp [List.dropWhile_cons, hc]
  | cons a w ih =>
    have ha : isWs a = true := hw a (by simp)
    have hw2 : ∀b ∈w, isWs b = true := fun b hb => hw b (by simp [hb])
    simp only [List.cons_append, List.dropWhile_cons, ha, if_pos]
    exact ih hw2

theorem rdropWhile_padded (x : List Char) (c d : Char) (hc : isWs c = false)
    (hd : isWs d = false) (mid : List Char) (hx : x = c :: mid ++ [d])
    (tail : List Char) (htail : ∀a ∈tail, isWs a = true) :
    List.rdropWhile isWs (x ++ tail) = x := by
  induction tail using List.reverseRecOn with
  | nil =>
    rw [List.append_nil, hx, List.cons_append, ← List.cons_append,
      List.rdropWhile_concat_neg isWs _ d (by simp [hd])]
  | append_singleton t a ih =>
    have ha : isWs a = true := htail a (by simp)
    have ht : ∀b ∈t, isWs b = true := fun b hb => htail b (by simp [hb])
    rw [← List.append_assoc, List.rdropWhile_concat_pos isWs _ a ha]
    exact ih ht

theorem trimChars_padded (w x tail : List Char) (hw : ∀a ∈w, isWs a = true)
    (c d : Char) (hc : isWs c = false) (hd : isWs d = false) (mid : List Char)
    (hx : x = c :: mid ++ [d]) (htail : ∀a ∈tail, isWs a = true) :
    trimChars (w ++ x ++ tail) = x := by
  rw [trimChars_eq_rdrop]
  have hx2 : x ++ tail = c :: (mid ++ [d] ++ tail) := by
    rw [hx]
    simp
  have h1 : List.dropWhile isWs (w ++ x ++ tail) = x ++ tail := by
    rw [List.append_assoc, hx2, dropWhile_padded w hw c hc _, ← hx2]
  rw [h1]
  exact rdropWhile_padded x c d hc hd mid hx tail htail

theorem trimChars_newBlob (content : List Char) (entry : List (String × Json)) :
    trimChars (newBlob content entry) =
      if trimChars content = [] then stringifyVal (.obj entry)
      else trimChars content ++ '\n' :: stringifyVal (.obj entry) := by
  have hS : stringifyVal (.obj entry) = obrace :: stringifyFields entry ++ [cbrace] :=
    stringify_obj_eq entry
  rw [newBlob]
  by_cases hT : trimChars content = []
  · rw [hT, if_pos rfl]
    exact trimChars_padded ['\n'] (stringifyVal (.obj entry)) ['\n'] (by decide)
      obrace cbrace isWs_obrace isWs_cbrace (stringifyFields entry) hS (by decide)
  · rw [if_neg hT]
    obtain ⟨c, T2, hcT⟩ : ∃ c T2, trimChars content = c :: T2 := by
      cases h : trimChars content with
      | nil => exact absurd h hT
      | cons c T2 => exact ⟨c, T2, rfl⟩
    have hc : isWs c = false := trimChars_head_not_ws hcT
    have hshape : trimChars content ++ '\n' :: stringifyVal (.obj entry) =
        c :: (T2 ++ '\n' :: obrace :: stringifyFields entry) ++ [cbrace] := by
      rw [hcT, hS]
      simp
    exact trimChars_padded [] _ ['\n'] (by decide) c cbrace hc isWs_cbrace _ hshape
      (by decide)

theorem digCh_ne_lf (n : Nat) : digCh n ≠ '\n' := by
  unfold digCh
  repeat' split
  all_goals decide

theorem natChars_no_lf (n : Nat) : '\n' ∉ natChars n := by
  induction n using Nat.strong_induction_on with
  | _ n ih =>
    rw [natChars]
    split
    · intro hmem
      simp at hmem
      exact digCh_ne_lf n hmem.symm
    · next hge =>
      intro hmem
      rcases List.mem_append.mp hmem with hm | hm
      · exact ih (n / 10) (Nat.div_lt_self (by omega) (by omega)) hm
      · simp at hm
        exact digCh_ne_lf _ hm.symm

theorem intChars_no_lf (i : Int) : '\n' ∉ intChars i := by
  unfold intChars
  split
  · intro hmem
    rcases List.mem_cons.mp hmem with hm | hm
    · exact absurd hm (by decide)
    · exact natChars_no_lf _ hm
  · exact natChars_no_lf _

theorem ratChars_no_lf (q : ℚ) : '\n' ∉ ratChars q := by
  unfold ratChars
  split
  · exact intChars_no_lf _
  · intro hmem
    rcases List.mem_append.mp hmem with hm | hm
    · exact intChars_no_lf _ hm
    · rcases List.mem_cons.mp hm with hm2 | hm2
      · exact absurd hm2 (by decide)
      · exact natChars_no_lf _ hm2

theorem escChar_no_lf (c x : Char) (hx : x ∈ escChar c) : x ≠ '\n' := by
  intro he
  subst he
  unfold escChar at hx
  split_ifs at hx with h1 h2 h3 h4 h5
  · exact absurd hx (by decide)
  · exact absurd hx (by decide)
  · exact absurd hx (by decide)
  · exact absurd hx (by decide)
  · exact absurd hx (by decide)
  · simp at hx
    exact h3 hx.symm

theorem escString_no_lf (s : String) : '\n' ∉ escString s := by
  unfold escString
  intro hmem
  rcases List.mem_flatten.mp hmem with ⟨l, hl, hc⟩
  rcases List.mem_map.mp hl with ⟨c, _, hcl⟩
  exact escChar_no_lf c '\n' (hcl ▸ hc) rfl

theorem strLit_no_lf (s : String) : '\n' ∉ strLit s := by
  unfold strLit
  intro hmem
  rcases List.mem_cons.mp hmem with h | h
  · exact absurd h (by decide)
  · rcases List.mem_append.mp h with h2 | h2
    · exact escString_no_lf s h2
    · simp at h2

theorem json_sizeOf_pos (v : Json) : 0 < sizeOf v := by
  cases v <;> simp

theorem stringify_no_lf_aux (n : Nat) :
    (∀ v : Json, sizeOf v ≤ n → '\n' ∉ stringifyVal v) ∧
    (∀ xs : List Json, sizeOf xs ≤ n → '\n' ∉ stringifyArr xs) ∧
    (∀ fs : List (String × Json), sizeOf fs ≤ n → '\n' ∉ stringifyFields fs) := by
  induction n with
  | zero =>
    refine ⟨fun v hv => absurd hv ?_, fun xs hxs => absurd hxs ?_, fun fs hfs => absurd hfs ?_⟩
    · have := json_sizeOf_pos v
      omega
    · cases xs <;> simp
    · cases fs <;> simp
  | succ n ih =>
    refine ⟨fun v hv => ?_, fun xs hxs => ?_, fun fs hfs => ?_⟩
    · cases v with
      | null =>
        rw [stringifyVal]
        decide
      | bool b =>
        cases b <;> (rw [stringifyVal]; decide)
      | num q =>
        rw [stringifyVal]
        exact ratChars_no_lf q
      | str s =>
        rw [stringifyVal]
        exact strLit_no_lf s
      | arr xs =>
        rw [stringifyVal]
        intro hmem
        rcases List.mem_cons.mp hmem with h | h
        · exact absurd h (by decide)
        · rcases List.mem_append.mp h with h2 | h2
          · have hsz : sizeOf xs ≤ n := by
              simp at hv
              omega
            exact ih.2.1 xs hsz h2
          · exact absurd h2 (by decide)
      | obj fs =>
        rw [stringifyVal]
        intro hmem
        rcases List.mem_cons.mp hmem with h | h
        · exact absurd h (by decide)
        · rcases List.mem_append.mp h with h2 | h2
          · have hsz : sizeOf fs ≤ n := by
              simp at hv
              omega
            exact ih.2.2 fs hsz h2
          · exact absurd h2 (by decide)
    · match xs with
      | [] =>
        rw [stringifyArr]
        simp
      | [x] =>
        rw [stringifyArr]
        have hsz : sizeOf x ≤ n := by
          simp at hxs
          omega
        exact ih.1 x hsz
      | x :: y :: rest =>
        rw [stringifyArr]
        intro hmem
        rcases List.mem_append.mp hmem with h | h
        · have hsz : sizeOf x ≤ n := by
            have := json_sizeOf_pos y
            simp at hxs
            omega
          exact ih.1 x hsz h
        · rcases List.mem_cons.mp h with h2 | h2
          · exact absurd h2 (by decide)
          · have hsz : sizeOf (y :: rest) ≤ n := by
              have := json_sizeOf_pos x
              simp at hxs ⊢
              omega
            exact ih.2.1 (y :: rest) hsz h2
    · match fs with
      | [] =>
        rw [stringifyFields]
        simp
      | [f] =>
        rw [stringifyFields]
        intro hmem
        rcases List.mem_append.mp hmem with h | h
        · exact strLit_no_lf f.1 h
        · rcases List.mem_cons.mp h with h2 | h2
          · exact absurd h2 (by decide)
          · have hsz : sizeOf f.2 ≤ n := by
              obtain ⟨k, v⟩ := f
              simp at hfs ⊢
              omega
            exact ih.1 f.2 hsz h2
      | f :: g :: rest =>
        rw [stringifyFields]
        intro hmem
        rcases List.mem_append.mp hmem with h | h
        · rcases List.mem_append.mp h with h2 | h2
          · exact strLit_no_lf f.1 h2
          · rcases List.mem_cons.mp h2 with h3 | h3
            · exact absurd h3 (by decide)
            · have hsz : sizeOf f.2 ≤ n := by
                obtain ⟨k, v⟩ := f
                obtain ⟨k2, v2⟩ := g
                simp at hfs ⊢
                omega
              exact ih.1 f.2 hsz h3
        · rcases List.mem_cons.mp h with h2 | h2
          · exact absurd h2 (by decide)
          · have hsz : sizeOf (g :: rest) ≤ n := by
              obtain ⟨k, v⟩ := f
              simp at hfs ⊢
              omega
            exact ih.2.2 (g :: rest) hsz h2

theorem stringifyVal_no_lf (v : Json) : '\n' ∉ stringifyVal v :=
  (stringify_no_lf_aux (sizeOf v)).1 v (Nat.le_refl _)

theorem splitLines_newBlob (content : List Char) (entry : List (String × Json)) :
    splitLines (newBlob content entry) =
      splitLines (trimChars content) ++ [stringifyVal (.obj entry), []] := by
  have h1 : newBlob content entry =
      (trimChars content ++ '\n' :: stringifyVal (.obj entry)) ++ '\n' :: [] := rfl
  rw [h1, splitLines_append, splitLines_append,
    splitLines_no_lf (stringifyVal_no_lf (.obj entry))]
  simp [splitLines]

theorem newBlob_getLast (content : List Char) (entry : List (String × Json)) :
    (newBlob content entry).getLast? = some '\n' := by
  have h1 : newBlob content entry =
      (trimChars content ++ '\n' :: stringifyVal (.obj entry)) ++ ['\n'] := rfl
  rw [h1, List.getLast?_concat]

theorem blobLines_newBlob (content : List Char) (entry : List (String × Json)) :
    blobLines (newBlob content entry) = blobLines content ++ [stringifyVal (.obj entry)] := by
  rw [blobLines, trimChars_newBlob]
  by_cases hT : trimChars content = []
  · rw [if_pos hT]
    have hb : blobLines content = [] := by
      rw [blobLines, hT]
      simp [splitLines]
    rw [hb, splitLines_no_lf (stringifyVal_no_lf (.obj entry)), stringify_obj_eq]
    simp
  · rw [if_neg hT, splitLines_append,
      splitLines_no_lf (stringifyVal_no_lf (.obj entry)), List.filter_append, blobLines,
      stringify_obj_eq]
    simp

theorem blobLabels_newBlob (parse : List Char → Option Json) (content : List Char)
    (entry : List (String × Json))
    (hrt : parse (stringifyVal (.obj entry)) = some (.obj entry)) :
    blobLabels parse (newBlob content entry) =
      blobLabels parse content ++ (objGet entry "disc_label").toList := by
  rw [blobLabels, blobLines_newBlob, List.filterMap_append, blobLabels]
  congr 1
  rw [List.filterMap_cons]
  have hl : lineLabel parse (stringifyVal (.obj entry)) = objGet entry "disc_label" := by
    rw [lineLabel, hrt]
    rfl
  rw [hl]
  cases objGet entry "disc_label" <;> simp

theorem parseLines_eq_none_iff (parse : List Char → Option Json) (ls : List (List Char)) :
    parseLines parse ls = none ↔ ∃ l ∈ ls, parse l = none := by
  induction ls with
  | nil => simp [parseLines]
  | cons l ls ih =>
    rw [parseLines]
    cases hp : parse l with
    | none => simp [hp]
    | some v =>
      cases hr : parseLines parse ls with
      | none =>
        obtain ⟨x, hx1, hx2⟩ := ih.mp hr
        constructor
        · intro _
          exact ⟨x, List.mem_cons_of_mem l hx1, hx2⟩
        · intro _
          rfl
      | some vs =>
        constructor
        · intro hcontra
          exact absurd hcontra (by simp)
        · rintro ⟨x, hx1, hx2⟩
          rcases List.mem_cons.mp hx1 with h | h
          · subst h
            rw [hp] at hx2
            exact absurd hx2 (by simp)
          · have hn : parseLines parse ls = none := ih.mpr ⟨x, h, hx2⟩
            rw [hr] at hn
            exact absurd hn (by simp)

theorem findThrow_append_first {α : Type} {p : α → Except Unit Bool} {pre : List α}
    (hpre : ∀ x ∈ pre, p x = .ok false) (e : α) (he : p e = .ok true) (post : List α) :
    findThrow p (pre ++ e :: post) = .ok (some e) := by
  induction pre with
  | nil =>
    rw [List.nil_append, findThrow, he]
  | cons x pre ih =>
    have hx : p x = .ok false := hpre x (by simp)
    have hpre2 : ∀ y ∈ pre, p y = .ok false := fun y hy => hpre y (by simp [hy])
    rw [List.cons_append, findThrow, hx]
    exact ih hpre2

theorem findThrow_ok_some {α : Type} {p : α → Except Unit Bool} {l : List α} {e : α}
    (h : findThrow p l = .ok (some e)) : e ∈ l ∧ p e = .ok true := by
  induction l with
  | nil =>
    rw [findThrow] at h
    exact absurd h (by simp)
  | cons x xs ih =>
    rw [findThrow] at h
    cases hp : p x with
    | error u =>
      rw [hp] at h
      exact absurd h (by simp)
    | ok b =>
      cases b with
      | true =>
        rw [hp] at h
        simp at h
        subst h
        exact ⟨by simp, hp⟩
      | false =>
        rw [hp] at h
        simp at h
        obtain ⟨hmem, hpe⟩ := ih h
        exact ⟨List.mem_cons_of_mem x hmem, hpe⟩

theorem contributeDisc_dup_eq (parse : List Char → Option Json)
    (data : List (String × Json)) (now : String) (content : List Char) (sha : String)
    (putOk : Bool) (hval : firstRejectedField data = none)
    (hdup : isDuplicate parse data content = true) :
    contributeDisc parse data true now (some (content, sha)) putOk = (.duplicate, none) := by
  simp only [contributeDisc, hval, hdup, Bool.not_true, Bool.false_eq_true, if_false, if_true]

theorem contributeDisc_not_dup_eq (parse : List Char → Option Json)
    (data : List (String × Json)) (now : String) (content : List Char) (sha : String)
    (putOk : Bool) (hval : firstRejectedField data = none)
    (hdup : isDuplicate parse data content = false) :
    contributeDisc parse data true now (some (content, sha)) putOk =
      (if putOk then .added (mkEntry data now) else .commitFailed,
       some ⟨newBlob content (mkEntry data now), sha⟩) := by
  simp only [contributeDisc, hval, hdup, Bool.not_true, Bool.false_eq_true, if_false]
  cases putOk <;> rfl

theorem objGet_mkEntry_disc_label (data : List (String × Json)) (now : String) :
    objGet (mkEntry data now) "disc_label" =
      some ((objGet data "disc_label").getD .null) := rfl

theorem objGet_mkEntry_track_count (data : List (String × Json)) (now : String) :
    objGet (mkEntry data now) "track_count" =
      some (if truthy (objGet data "track_count") then (objGet data "track_count").getD .null
            else .num 0) := rfl

theorem objGet_mkEntry_year (data : List (String × Json)) (now : String) :
    objGet (mkEntry data now) "year" =
      some (if truthy (objGet data "year") then (objGet data "year").getD .null
            else .null) := rfl

theorem objGet_mkEntry_tmdb_id (data : List (String × Json)) (now : String) :
    objGet (mkEntry data now) "tmdb_id" =
      some (if truthy (objGet data "tmdb_id") then (objGet data "tmdb_id").getD .null
            else .null) := rfl

theorem objGet_mkEntry_contributed_at (data : List (String × Json)) (now : String) :
    objGet (mkEntry data now) "contributed_at" = some (.str now) := rfl

theorem mkEntry_keys (data : List (String × Json)) (now : String) :
    (mkEntry data now).map Prod.fst =
      ["disc_label", "disc_type", "duration_secs", "track_count", "title", "year",
       "tmdb_id", "contributed_at"] := rfl

theorem firstRejectedField_none_truthy {data : List (String × Json)}
    (hval : firstRejectedField data = none) :
    ∀ f ∈ requiredFields, truthy (objGet data f) = true := by
  intro f hf
  have := List.find?_eq_none.mp hval f hf
  simpa using this

theorem objGet_disc_label_isSome {data : List (String × Json)}
    (hval : firstRejectedField data = none) :
    ∃ L, objGet data "disc_label" = some L := by
  have ht := firstRejectedField_none_truthy hval "disc_label" (by simp [requiredFields])
  cases h : objGet data "disc_label" with
  | none =>
    rw [h] at ht
    simp [truthy] at ht
  | some L => exact ⟨L, rfl⟩

theorem lineLabel_eq_some {parse : List Char → Option Json} {line : List Char} {a : Json}
    (h : lineLabel parse line = some a) :
    ∃ v, parse line = some v ∧ getProp v "disc_label" = .ok (some a) := by
  rw [lineLabel] at h
  split at h
  · exact absurd h (by simp)
  · next v hp =>
    split at h
    · exact absurd h (by simp)
    · next f hg =>
      subst h
      exact ⟨v, hp, hg⟩

theorem dupLinePred_none {parse : List Char → Option Json} {data : List (String × Json)}
    {line : List Char} (hp : parse line = none) : dupLinePred parse data line = false := by
  rw [dupLinePred, hp]

theorem isDuplicate_filter_parseable (parse : List Char → Option Json)
    (data : List (String × Json)) (content : List Char) :
    isDuplicate parse data content =
      ((blobLines content).filter (fun l => (parse l).isSome)).any (dupLinePred parse data) := by
  rw [isDuplicate]
  induction blobLines content with
  | nil => rfl
  | cons l ls ih =>
    cases hp : parse l with
    | none =>
      rw [List.any_cons, dupLinePred_none hp, List.filter_cons, hp]
      simp only [Option.isSome_none, Bool.false_eq_true, if_false, Bool.false_or]
      exact ih
    | some v =>
      rw [List.any_cons, List.filter_cons, hp]
      simp only [Option.isSome_some, if_true, List.any_cons]
      rw [ih]

theorem optStrictEq_some_str {f : Option Json} {t : String}
    (h : optStrictEq f (some (.str t)) = true) : f = some (.str t) := by
  cases f with
  | none => exact Bool.noConfusion h
  | some v =>
    cases v with
    | str s =>
      have hs : s = t := eq_of_beq h
      rw [hs]
    | null => exact Bool.noConfusion h
    | bool b => exact Bool.noConfusion h
    | num q => exact Bool.noConfusion h
    | arr xs => exact Bool.noConfusion h
    | obj fs => exact Bool.noConfusion h

theorem fuzzyPred_true {duration : ℚ} {e : Json} (h : fuzzyPred duration e = .ok true) :
    getProp e "disc_type" = .ok (some (.str "dvd")) := by
  rw [fuzzyPred] at h
  split at h
  · exact absurd h (by simp)
  · rename_i fd hfd
    cases fd with
    | none => simp at h
    | some v =>
      cases v with
      | num q =>
        by_cases hq : |q - duration| ≤ duration * (5 / 100)
        · simp only [decide_eq_true hq, if_true] at h
          split at h
          · exact absurd h (by simp)
          · rename_i ft hgt
            simp only [Except.ok.injEq] at h
            rw [hgt, optStrictEq_some_str h]
        · simp only [decide_eq_false hq, Bool.false_eq_true, if_false] at h
          exact absurd h (by simp)
      | null => simp at h
      | bool b => simp at h
      | str s2 => simp at h
      | arr xs => simp at h
      | obj fs => simp at h

theorem lookupDisc_exact_found (parse : List Char → Option Json) (label : String)
    (duration : ℚ) (text : List Char) (entries : List Json) (e : Json)
    (hlabel : ¬(label = "")) (hread : readEntries parse text = some entries)
    (hfind : findThrow (exactPred label) entries = .ok (some e)) :
    lookupDisc parse label duration (some text) = .found e := by
  have hbeq : (label == "") = false := beq_eq_false_iff_ne.mpr hlabel
  simp only [lookupDisc, hbeq, Bool.false_eq_true, if_false, hread, hfind]

theorem lookupDisc_no_exact (parse : List Char → Option Json) (label : String)
    (duration : ℚ) (text : List Char) (entries : List Json)
    (hlabel : ¬(label = "")) (hread : readEntries parse text = some entries)
    (hex : findThrow (exactPred label) entries = .ok none) :
    lookupDisc parse label duration (some text) =
      (if duration > 0 then
        match findThrow (fuzzyPred duration) entries with
        | .error _ => .thrown
        | .ok (some m) => .found m
        | .ok none => .notFound label duration
       else .notFound label duration) := by
  have hbeq : (label == "") = false := beq_eq_false_iff_ne.mpr hlabel
  simp only [lookupDisc, hbeq, Bool.false_eq_true, if_false, hread, hex]

theorem lookupDisc_parse_failure (parse : List Char → Option Json) (label : String)
    (duration : ℚ) (text : List Char) (hlabel : ¬(label = ""))
    (hbad : ∃ line ∈ blobLines text, parse line = none) :
    lookupDisc parse label duration (some text) = .thrown := by
  have hbeq : (label == "") = false := beq_eq_false_iff_ne.mpr hlabel
  have hread : readEntries parse text = none :=
    (parseLines_eq_none_iff parse (blobLines text)).mpr hbad
  simp only [lookupDisc, hbeq, Bool.false_eq_true, if_false, hread]

theorem fuzzyPred_rec5501_true (d : ℚ) (hc : |5501 - d| ≤ d * (5 / 100)) :
    fuzzyPred d rec5501 = .ok true := by
  have hgp : getProp rec5501 "duration_secs" = .ok (some (.num 5501)) := rfl
  rw [fuzzyPred, hgp]
  simp only [decide_eq_true hc, if_true]
  rfl

theorem fuzzyPred_rec5501_false (d : ℚ) (hc : ¬(|5501 - d| ≤ d * (5 / 100))) :
    fuzzyPred d rec5501 = .ok false := by
  have hgp : getProp rec5501 "duration_secs" = .ok (some (.num 5501)) := rfl
  rw [fuzzyPred, hgp]
  simp only [decide_eq_false hc]
  rfl

theorem lookup_demo_fuzzy (d : ℚ) (hd : 0 < d) :
    lookupDisc demoParse "UNKNOWN1" d (some demoBlob) =
      if |5501 - d| ≤ d * (5 / 100) then .found rec5501 else .notFound "UNKNOWN1" d := by
  have hread : readEntries demoParse demoBlob = some [rec5501] := rfl
  have hex : findThrow (exactPred "UNKNOWN1") [rec5501] = .ok none := rfl
  rw [lookupDisc_no_exact demoParse "UNKNOWN1" d demoBlob [rec5501] (by decide) hread hex,
    if_pos hd]
  by_cases hc : |5501 - d| ≤ d * (5 / 100)
  · rw [if_pos hc, findThrow, fuzzyPred_rec5501_true d hc]
  · rw [if_neg hc, findThrow, fuzzyPred_rec5501_false d hc, findThrow]

/-- C3 counterexample: the claim asserts that a lookup with duration one
second beyond 5501 * 1.05 does not return the dvd record with
duration_secs = 5501; in fact the code computes the tolerance as 5% of the
supplied duration, so at duration 5501 * 1.05 + 1 the distance 276.05 is
still within the tolerance 288.8525 and the record is returned. -/
theorem claim_C3_counterexample :
    lookupDisc demoParse "UNKNOWN1" (5501 * (105 / 100) + 1) (some demoBlob) =
      .found rec5501 := by
  rw [lookup_demo_fuzzy (5501 * (105 / 100) + 1) (by norm_num)]
  rw [if_pos (by rw [abs_le]; constructor <;> norm_num)]

/-- C3 amended: with the only candidate a dvd record with
duration_secs = 5501 and no exact label match, a lookup at duration equal
to 5501 * 1.05 returns the record, and because the tolerance is 5% of the
supplied duration a lookup one second beyond that still returns it; the
record stops matching only once the duration exceeds 5501 / 0.95 =
110020/19 (about 5790.5), e.g. a lookup at duration 5791 does not return
it.  The final conjunct characterizes the exact matching window of the
fuzzy test around this record. -/
theorem claim_C3_amended :
    lookupDisc demoParse "UNKNOWN1" (5501 * (105 / 100)) (some demoBlob) =
      .found rec5501 ∧
    lookupDisc demoParse "UNKNOWN1" (5501 * (105 / 100) + 1) (some demoBlob) =
      .found rec5501 ∧
    lookupDisc demoParse "UNKNOWN1" 5791 (some demoBlob) =
      .notFound "UNKNOWN1" 5791 ∧
    (∀ d : ℚ, (|5501 - d| ≤ d * (5 / 100)) ↔ (110020 / 21 ≤ d ∧ d ≤ 110020 / 19)) := by
  refine ⟨?_, ?_, ?_, ?_⟩
  · rw [lookup_demo_fuzzy (5501 * (105 / 100)) (by norm_num)]
    rw [if_pos (by rw [abs_le]; constructor <;> norm_num)]
  · rw [lookup_demo_fuzzy (5501 * (105 / 100) + 1) (by norm_num)]
    rw [if_pos (by rw [abs_le]; constructor <;> norm_num)]
  · rw [lookup_demo_fuzzy 5791 (by norm_num)]
    rw [if_neg (by rw [abs_le]; push_neg; intro h1; norm_num at h1 ⊢)]
  · intro d
    rw [abs_le]
    constructor
    · rintro ⟨h1, h2⟩
      constructor <;> linarith
    · rintro ⟨h1, h2⟩
      constructor <;> linarith

/-- C4: when the parsed snapshot decomposes as pre ++ e :: post where e is
the first record whose disc_label is strictly equal to the queried label
(no earlier entry matches, and the disc_label access on the earlier entries
does not throw, which holds for any snapshot of records), lookup returns
found with exactly that record, for every duration: the fuzzy step is never
consulted. -/
theorem claim_C4 (parse : List Char → Option Json) (label : String) (duration : ℚ)
    (text : List Char) (pre post : List Json) (e : Json)
    (hlabel : ¬(label = ""))
    (hread : readEntries parse text = some (pre ++ e :: post))
    (hpre : ∀ x ∈ pre, exactPred label x = .ok false)
    (he : exactPred label e = .ok true) :
    lookupDisc parse label duration (some text) = .found e := by
  exact lookupDisc_exact_found parse label duration text (pre ++ e :: post) e hlabel hread
    (findThrow_append_first hpre e he post)

/-- C4 witness. -/
theorem claim_C4_witness :
    lookupDisc demoParse "SC30NNW1" 0 (some demoBlob) = .found rec5501 :=
  claim_C4 demoParse "SC30NNW1" 0 demoBlob [] [] rec5501 (by decide) rfl (by simp) rfl

/-- C5: the fuzzy step runs only when there is no exact match and the
duration hint is positive: with no exact match and duration at most 0 the
lookup returns found = false echoing label and duration; and any record the
fuzzy path returns has disc_type strictly equal to the string dvd, so a
record of any other disc_type is never returned by the fuzzy path. -/
theorem claim_C5 :
    (∀ (parse : List Char → Option Json) (label : String) (duration : ℚ)
      (text : List Char) (entries : List Json), ¬(label = "") →
      readEntries parse text = some entries →
      findThrow (exactPred label) entries = .ok none →
      duration ≤ 0 →
      lookupDisc parse label duration (some text) = .notFound label duration) ∧
    (∀ (parse : List Char → Option Json) (label : String) (duration : ℚ)
      (text : List Char) (entries : List Json) (e : Json), ¬(label = "") →
      readEntries parse text = some entries →
      findThrow (exactPred label) entries = .ok none →
      lookupDisc parse label duration (some text) = .found e →
      e ∈ entries ∧ getProp e "disc_type" = .ok (some (.str "dvd"))) := by
  constructor
  · intro parse label duration text entries hl hr he hd
    rw [lookupDisc_no_exact parse label duration text entries hl hr he,
      if_neg (not_lt.mpr hd)]
  · intro parse label duration text entries e hl hr he hfound
    rw [lookupDisc_no_exact parse label duration text entries hl hr he] at hfound
    by_cases hd : duration > 0
    · rw [if_pos hd] at hfound
      cases hf : findThrow (fuzzyPred duration) entries with
      | error u =>
        rw [hf] at hfound
        simp at hfound
      | ok o =>
        cases o with
        | none =>
          rw [hf] at hfound
          simp at hfound
        | some m =>
          rw [hf] at hfound
          simp only [LookupResult.found.injEq] at hfound
          subst hfound
          obtain ⟨hmem, hp⟩ := findThrow_ok_some hf
          exact ⟨hmem, fuzzyPred_true hp⟩
    · rw [if_neg hd] at hfound
      simp at hfound

/-- C5 witness: with no exact match and duration 0 the fuzzy step is
skipped; and a record the fuzzy path does return is a dvd record. -/
theorem claim_C5_witness :
    lookupDisc demoParse "UNKNOWN1" 0 (some demoBlob) = .notFound "UNKNOWN1" 0 ∧
    (rec5501 ∈ [rec5501] ∧ getProp rec5501 "disc_type" = .ok (some (.str "dvd"))) := by
  constructor
  · exact claim_C5.1 demoParse "UNKNOWN1" 0 demoBlob [rec5501] (by decide) rfl rfl
      (le_refl 0)
  · refine claim_C5.2 demoParse "UNKNOWN1" 5501 demoBlob [rec5501] rec5501 (by decide)
      rfl rfl ?_
    rw [lookup_demo_fuzzy 5501 (by norm_num)]
    rw [if_pos (by rw [abs_le]; constructor <;> norm_num)]

/-- C6: the code checks each required field with a JavaScript falsiness
test (!data[field]), so an input whose four required fields are all
present but whose duration_secs is the integer 0 is rejected with the
error naming duration_secs, before the credential check and before any
interaction with the storage host (the result does not depend on the
fetched blob or the conditional-update outcome, and no write action is
produced).  This contradicts the claim and the data-model table, which
declare duration_secs an integer greater than or equal to 0 and make the
validation a presence check; the code's own error message, which says the
field is missing although it is present, records the intent the falsiness
test fails to implement. -/
theorem claim_C6 (parse : List Char → Option Json) (hasToken : Bool) (now : String)
    (fetched : Option (List Char × String)) (putOk : Bool) :
    contributeDisc parse zeroData hasToken now fetched putOk =
      (.validationError "duration_secs", none) := rfl

/-- C8: the write-path duplicate scan treats every line that fails to
parse as not a duplicate (its try/catch yields false), the scan's result
is determined entirely by the parseable lines, a contribution that passes
validation with the credential configured and a successful authenticated
read always ends in the duplicate no-op, the success echo, or the
commit-failure report (never a parse abort); whereas on the read path one
unparseable nonempty line makes the lookup throw, which the top-level
handler surfaces as a 500. -/
theorem claim_C8 :
    (∀ (parse : List Char → Option Json) (data : List (String × Json))
      (line : List Char), parse line = none → dupLinePred parse data line = false) ∧
    (∀ (parse : List Char → Option Json) (data : List (String × Json))
      (content : List Char), isDuplicate parse data content =
        ((blobLines content).filter (fun l => (parse l).isSome)).any
          (dupLinePred parse data)) ∧
    (∀ (parse : List Char → Option Json) (data : List (String × Json)) (now : String)
      (content : List Char) (sha : String) (putOk : Bool),
      firstRejectedField data = none →
      ((contributeDisc parse data true now (some (content, sha)) putOk).1 = .duplicate ∨
       (contributeDisc parse data true now (some (content, sha)) putOk).1 =
         .added (mkEntry data now) ∨
       (contributeDisc parse data true now (some (content, sha)) putOk).1 =
         .commitFailed)) ∧
    (∀ (parse : List Char → Option Json) (label : String) (duration : ℚ)
      (text : List Char), ¬(label = "") →
      (∃ line ∈ blobLines text, parse line = none) →
      lookupDisc parse label duration (some text) = .thrown) := by
  refine ⟨?_, ?_, ?_, ?_⟩
  · intro parse data line hp
    exact dupLinePred_none hp
  · intro parse data content
    exact isDuplicate_filter_parseable parse data content
  · intro parse data now content sha putOk hval
    cases hdup : isDuplicate parse data content with
    | true =>
      rw [contributeDisc_dup_eq parse data now content sha putOk hval hdup]
      exact Or.inl rfl
    | false =>
      rw [contributeDisc_not_dup_eq parse data now content sha putOk hval hdup]
      cases putOk with
      | true => exact Or.inr (Or.inl rfl)
      | false => exact Or.inr (Or.inr rfl)
  · intro parse label duration text hl hbad
    exact lookupDisc_parse_failure parse label duration text hl hbad

/-- C8 witness: a concrete unparseable line is skipped by the duplicate
scan, the scan over a blob containing it equals the scan over its parseable
lines, the contribution over that blob still completes (here: as a
duplicate no-op), and the read path over the same blob throws. -/
theorem claim_C8_witness :
    dupLinePred demoParse dupData badLine = false ∧
    isDuplicate demoParse dupData badBlob =
      ((blobLines badBlob).filter (fun l => (demoParse l).isSome)).any
        (dupLinePred demoParse dupData) ∧
    ((contributeDisc demoParse dupData true demoNow (some (badBlob, "sha1")) true).1 =
       .duplicate ∨
     (contributeDisc demoParse dupData true demoNow (some (badBlob, "sha1")) true).1 =
       .added (mkEntry dupData demoNow) ∨
     (contributeDisc demoParse dupData true demoNow (some (badBlob, "sha1")) true).1 =
       .commitFailed) ∧
    lookupDisc demoParse "SC30NNW1" 0 (some badBlob) = .thrown := by
  refine ⟨?_, ?_, ?_, ?_⟩
  · exact claim_C8.1 demoParse dupData badLine rfl
  · exact claim_C8.2.1 demoParse dupData badBlob
  · exact claim_C8.2.2.1 demoParse dupData demoNow badBlob "sha1" true rfl
  · exact claim_C8.2.2.2 demoParse "SC30NNW1" 0 badBlob (by decide) ⟨badLine, by decide, rfl⟩

/-- C2: for a contribution that passes validation with the credential
configured, reads blob state (content, sha) in step 3, and is not a
duplicate, the single conditional update submitted to the host carries
exactly that sha as its precondition (the write-action component of the
result is one Option: at most one write is ever attempted, so there is no
internal retry), and when the host rejects the update the operation
returns the commit-failure error, never a success response. -/
theorem claim_C2 (parse : List Char → Option Json) (data : List (String × Json))
    (now : String) (content : List Char) (sha : String) (putOk : Bool)
    (hval : firstRejectedField data = none)
    (hdup : isDuplicate parse data content = false) :
    (contributeDisc parse data true now (some (content, sha)) putOk).2 =
      some ⟨newBlob content (mkEntry data now), sha⟩ ∧
    (contributeDisc parse data true now (some (content, sha)) putOk).1 =
      (if putOk then .added (mkEntry data now) else .commitFailed) := by
  rw [contributeDisc_not_dup_eq parse data now content sha putOk hval hdup]
  exact ⟨rfl, rfl⟩

/-- C2 witness: at a concrete non-duplicate contribution whose conditional
update is rejected by the host, the submitted write carries the sha read in
step 3 and the outcome is the commit-failure error. -/
theorem claim_C2_witness :
    (contributeDisc demoParse demoData true demoNow (some (demoBlob, "sha1")) false).2 =
      some ⟨newBlob demoBlob (mkEntry demoData demoNow), "sha1"⟩ ∧
    (contributeDisc demoParse demoData true demoNow (some (demoBlob, "sha1")) false).1 =
      .commitFailed := by
  have h := claim_C2 demoParse demoData demoNow demoBlob "sha1" false rfl rfl
  exact ⟨h.1, h.2⟩

/-- C7: the normalized record stores the server clock (the now argument,
modelling new Date().toISOString()) in contributed_at for every input
object data, in particular for one that carries its own contributed_at
field (the field list of data is universally quantified and mkEntry never
reads a contributed_at key from it), and the successful contribution
echoes exactly that record. -/
theorem claim_C7 (parse : List Char → Option Json) (data : List (String × Json))
    (now : String) (content : List Char) (sha : String)
    (hval : firstRejectedField data = none)
    (hdup : isDuplicate parse data content = false) :
    objGet (mkEntry data now) "contributed_at" = some (.str now) ∧
    contributeDisc parse data true now (some (content, sha)) true =
      (.added (mkEntry data now), some ⟨newBlob content (mkEntry data now), sha⟩) := by
  constructor
  · exact objGet_mkEntry_contributed_at data now
  · rw [contributeDisc_not_dup_eq parse data now content sha true hval hdup]
    rfl

/-- C7 witness: demoData supplies its own contributed_at value
(1999-01-01T00:00:00Z); the stored and echoed record carries the server
timestamp demoNow instead. -/
theorem claim_C7_witness :
    objGet (mkEntry demoData demoNow) "contributed_at" = some (.str demoNow) ∧
    contributeDisc demoParse demoData true demoNow (some (demoBlob, "sha1")) true =
      (.added (mkEntry demoData demoNow),
       some ⟨newBlob demoBlob (mkEntry demoData demoNow), "sha1"⟩) :=
  claim_C7 demoParse demoData demoNow demoBlob "sha1" rfl rfl

/-- C9: on a successful non-duplicate contribution the blob submitted to
the host is the previous content with surrounding whitespace trimmed,
followed by a newline, the serialization of the new record as one line,
and a trailing newline; its line decomposition is exactly the lines of the
trimmed previous content, then the new record line, then the empty piece
after the final newline — so every existing line is preserved unchanged
and in order, the new record is the final line, and the blob ends with a
newline. -/
theorem claim_C9 (parse : List Char → Option Json) (data : List (String × Json))
    (now : String) (content : List Char) (sha : String)
    (hval : firstRejectedField data = none)
    (hdup : isDuplicate parse data content = false) :
    contributeDisc parse data true now (some (content, sha)) true =
      (.added (mkEntry data now), some ⟨newBlob content (mkEntry data now), sha⟩) ∧
    newBlob content (mkEntry data now) =
      trimChars content ++ '\n' :: stringifyVal (.obj (mkEntry data now)) ++ ['\n'] ∧
    splitLines (newBlob content (mkEntry data now)) =
      splitLines (trimChars content) ++ [stringifyVal (.obj (mkEntry data now)), []] ∧
    (newBlob content (mkEntry data now)).getLast? = some '\n' := by
  refine ⟨?_, rfl, splitLines_newBlob content (mkEntry data now),
    newBlob_getLast content (mkEntry data now)⟩
  rw [contributeDisc_not_dup_eq parse data now content sha true hval hdup]
  rfl

/-- C9 witness. -/
theorem claim_C9_witness :
    contributeDisc demoParse demoData true demoNow (some (demoBlob, "sha1")) true =
      (.added (mkEntry demoData demoNow),
       some ⟨newBlob demoBlob (mkEntry demoData demoNow), "sha1"⟩) ∧
    newBlob demoBlob (mkEntry demoData demoNow) =
      trimChars demoBlob ++ '\n' :: stringifyVal (.obj (mkEntry demoData demoNow)) ++
        ['\n'] ∧
    splitLines (newBlob demoBlob (mkEntry demoData demoNow)) =
      splitLines (trimChars demoBlob) ++
        [stringifyVal (.obj (mkEntry demoData demoNow)), []] ∧
    (newBlob demoBlob (mkEntry demoData demoNow)).getLast? = some '\n' :=
  claim_C9 demoParse demoData demoNow demoBlob "sha1" rfl rfl

/-- C10: the normalized record contains exactly the eight schema fields in
this order, whatever fields the client supplied (extra client fields are
discarded since the key list never depends on data); track_count defaults
to 0 whenever the supplied value is falsy; year and tmdb_id default to
null when not supplied; and the successful contribution stores and echoes
exactly this record. -/
theorem claim_C10 (parse : List Char → Option Json) (data : List (String × Json))
    (now : String) (content : List Char) (sha : String)
    (hval : firstRejectedField data = none)
    (hdup : isDuplicate parse data content = false) :
    (mkEntry data now).map Prod.fst =
      ["disc_label", "disc_type", "duration_secs", "track_count", "title", "year",
       "tmdb_id", "contributed_at"] ∧
    (truthy (objGet data "track_count") = false →
      objGet (mkEntry data now) "track_count" = some (.num 0)) ∧
    (objGet data "year" = none → objGet (mkEntry data now) "year" = some .null) ∧
    (objGet data "tmdb_id" = none → objGet (mkEntry data now) "tmdb_id" = some .null) ∧
    contributeDisc parse data true now (some (content, sha)) true =
      (.added (mkEntry data now), some ⟨newBlob content (mkEntry data now), sha⟩) := by
  refine ⟨mkEntry_keys data now, ?_, ?_, ?_, ?_⟩
  · intro ht
    rw [objGet_mkEntry_track_count data now, ht]
    simp
  · intro hy
    rw [objGet_mkEntry_year data now, hy]
    simp [truthy]
  · intro hy
    rw [objGet_mkEntry_tmdb_id data now, hy]
    simp [truthy]
  · rw [contributeDisc_not_dup_eq parse data now content sha true hval hdup]
    rfl

/-- C10 witness: demoData supplies an extra field and omits track_count,
year and tmdb_id; the normalized record has exactly the eight schema keys,
track_count 0 and year and tmdb_id null, and is echoed by the successful
contribution. -/
theorem claim_C10_witness :
    (mkEntry demoData demoNow).map Prod.fst =
      ["disc_label", "disc_type", "duration_secs", "track_count", "title", "year",
       "tmdb_id", "contributed_at"] ∧
    objGet (mkEntry demoData demoNow) "track_count" = some (.num 0) ∧
    objGet (mkEntry demoData demoNow) "year" = some .null ∧
    objGet (mkEntry demoData demoNow) "tmdb_id" = some .null ∧
    contributeDisc demoParse demoData true demoNow (some (demoBlob, "sha1")) true =
      (.added (mkEntry demoData demoNow),
       some ⟨newBlob demoBlob (mkEntry demoData demoNow), "sha1"⟩) := by
  have h := claim_C10 demoParse demoData demoNow demoBlob "sha1" rfl rfl
  exact ⟨h.1, h.2.1 rfl, h.2.2.1 rfl, h.2.2.2.1 rfl, h.2.2.2.2⟩

/-- C1: for a contribution that passes validation with the credential
configured and reads blob state (content, sha) in step 3, (a) if some
parseable line of that blob already carries a disc_label strictly equal to
the new entry's disc_label, the operation returns the duplicate success
(success with duplicate = true) and submits no conditional write; and (b)
the uniqueness-of-disc_label invariant is preserved by every successful
contribution: a duplicate outcome performs no write by (a), and whenever
the operation succeeds with a write, pairwise distinctness of the
disc_label values of the blob's parseable lines carries over to the
submitted blob (the roundtrip hypothesis states that JSON.parse inverts
JSON.stringify on the new record line). -/
theorem claim_C1 (parse : List Char → Option Json) (data : List (String × Json))
    (now : String) (content : List Char) (sha : String) (putOk : Bool)
    (hval : firstRejectedField data = none) :
    ((∃ line ∈ blobLines content, ∃ v lab, parse line = some v ∧
        getProp v "disc_label" = .ok (some lab) ∧
        jsStrictEq lab ((objGet data "disc_label").getD .null) = true) →
      contributeDisc parse data true now (some (content, sha)) putOk =
        (.duplicate, none)) ∧
    (∀ e w, labelsUnique parse content →
      parse (stringifyVal (.obj (mkEntry data now))) = some (.obj (mkEntry data now)) →
      contributeDisc parse data true now (some (content, sha)) putOk =
        (.added e, some w) →
      labelsUnique parse w.content) := by
  constructor
  · rintro ⟨line, hmem, v, lab, hp, hg, hje⟩
    obtain ⟨L, hL⟩ := objGet_disc_label_isSome hval
    have hdp : dupLinePred parse data line = true := by
      simp only [dupLinePred, hp, hg]
      rw [hL] at hje ⊢
      simpa using hje
    have hdup : isDuplicate parse data content = true := by
      rw [isDuplicate, List.any_eq_true]
      exact ⟨line, hmem, hdp⟩
    exact contributeDisc_dup_eq parse data now content sha putOk hval hdup
  · intro e w hu hrt heq
    cases hdup : isDuplicate parse data content with
    | true =>
      rw [contributeDisc_dup_eq parse data now content sha putOk hval hdup] at heq
      exact absurd heq (by simp)
    | false =>
      rw [contributeDisc_not_dup_eq parse data now content sha putOk hval hdup] at heq
      have hw : w = ⟨newBlob content (mkEntry data now), sha⟩ := by
        have h2 := congrArg Prod.snd heq
        simp at h2
        exact h2.symm
      subst hw
      show labelsUnique parse (newBlob content (mkEntry data now))
      rw [labelsUnique, blobLabels_newBlob parse content (mkEntry data now) hrt]
      obtain ⟨L, hL⟩ := objGet_disc_label_isSome hval
      have hlab : objGet (mkEntry data now) "disc_label" = some L := by
        rw [objGet_mkEntry_disc_label, hL]
        rfl
      rw [hlab, Option.toList_some]
      refine List.pairwise_append.mpr ⟨hu, List.pairwise_singleton _ _, ?_⟩
      intro a ha b hb
      simp at hb
      subst hb
      obtain ⟨line, hline, hlab2⟩ := List.mem_filterMap.mp ha
      obtain ⟨v, hp, hg⟩ := lineLabel_eq_some hlab2
      rw [isDuplicate] at hdup
      have hall := List.any_eq_false.mp hdup line hline
      have hdpl : dupLinePred parse data line = false := Bool.eq_false_iff.mpr hall
      simp only [dupLinePred, hp, hg, hL] at hdpl
      exact hdpl

/-- C1 witness: resubmitting the already-present label SC30NNW1 yields the
duplicate no-op success with no write; and after the successful
contribution of the fresh label NEWLBL the submitted blob still has
pairwise-distinct disc_label values. -/
theorem claim_C1_witness :
    contributeDisc demoParse dupData true demoNow (some (demoBlob, "sha1")) true =
      (.duplicate, none) ∧
    labelsUnique demoParseRt (newBlob demoBlob (mkEntry demoData demoNow)) := by
  constructor
  · exact (claim_C1 demoParse dupData demoNow demoBlob "sha1" true rfl).1
      ⟨line1, by decide, rec5501, .str "SC30NNW1", rfl, rfl, rfl⟩
  · refine (claim_C1 demoParseRt demoData demoNow demoBlob "sha1" true rfl).2
      (mkEntry demoData demoNow) ⟨newBlob demoBlob (mkEntry demoData demoNow), "sha1"⟩
      ?_ ?_ ?_
    · rw [labelsUnique]
      have hb : blobLabels demoParseRt demoBlob = [.str "SC30NNW1"] := rfl
      rw [hb]
      exact List.pairwise_singleton _ _
    · have hde : demoEntry = mkEntry demoData demoNow := rfl
      rw [← hde, demoParseRt]
      have hne1 : ¬(stringifyVal (.obj demoEntry) = line1) := by
        intro hcon
        rw [stringify_obj_eq] at hcon
        have hl1 : line1 = 'l' :: ('i' :: ('n' :: ('e' :: ('1' :: [])))) := rfl
        rw [hl1] at hcon
        injection hcon with hh1 hh2
        exact absurd hh1 (by decide)
      rw [if_neg hne1, if_pos rfl]
    · rw [contributeDisc_not_dup_eq demoParseRt demoData demoNow demoBlob "sha1" true
        rfl rfl]
      rfl
